import Mathlib

/-!
Shallow embedding of the e-commerce backend's request-handling core:
the product and order route handlers (filtering, pagination, sorting,
id normalization, creation, update, deletion) over the nedb-backed
document store, together with theorems checking the specification's
claims against this embedding.

Modelling conventions:
* JS numbers that carry prices, quantities and amounts are modelled as Int;
  page and size are integers per the interface description.
* A document field that may be absent is an `Option`; the JS value
  `undefined` is `none`.
* The store is a list of stored documents; `find`, `sort`, `skip`,
  `limit`, `count`, `insert`, `update` and `remove` are modelled after
  the nedb implementation used by the repository.
-/

namespace EcomSpec

/-- A primitive value of a document field as it occurs in this
repository: absent (JS undefined), a number, or a string. -/
inductive DocVal where
  | missingVal : DocVal
  | num : Int → DocVal
  | str : String → DocVal
deriving DecidableEq, Repr

/-- nedb compareThings restricted to the value kinds occurring here:
undefined sorts before numbers, numbers before strings; numbers compare
numerically, strings lexicographically. Yields -1, 0 or 1. -/
def compareThings : DocVal → DocVal → Int
  | .missingVal, .missingVal => 0
  | .missingVal, _ => -1
  | _, .missingVal => 1
  | .num a, .num b => if a < b then -1 else if b < a then 1 else 0
  | .num _, .str _ => -1
  | .str _, .num _ => 1
  | .str a, .str b => if a < b then -1 else if b < a then 1 else 0

/-- ECMAScript Array slice for integer arguments: a negative index counts
from the end, and the window clamps to the array bounds. -/
def jsSlice (l : List α) (start stop : Int) : List α :=
  let len : Int := l.length
  let s : Int := if start < 0 then max (len + start) 0 else min start len
  let e : Int := if stop < 0 then max (len + stop) 0 else min stop len
  (l.drop s.toNat).take (e - s).toNat

/-- nedb cursor limit/skip application: the slice from skip-or-0 of
length limit, where a limit of 0 is falsy in JS and falls back to the
whole result length (so limit 0 imposes no bound at all). -/
def cursorWindow (l : List α) (skip limit : Int) : List α :=
  let sk : Int := if skip = 0 then 0 else skip
  let lim : Int := if limit = 0 then (l.length : Int) else limit
  jsSlice l sk (sk + lim)

/-- Insert an element into a sorted list, before the first element it
is not after: the insertion step of a stable sort. -/
def stableInsert (le : α → α → Bool) (x : α) : List α → List α
  | [] => [x]
  | y :: ys => if le x y then x :: y :: ys else y :: stableInsert le x ys

/-- A stable sort (insertion sort). JS Array sort with a comparator is
stable, and a stable sort for a total preorder comparator is unique,
so this models nedb's use of it faithfully. -/
def stableSort (le : α → α → Bool) : List α → List α
  | [] => []
  | x :: xs => stableInsert le x (stableSort le xs)

/-- nedb cursor sort on a single key with direction dir (1 ascending,
-1 descending): a stable sort by the comparator that multiplies
compareThings on the key's values by the direction. -/
def nedbSortBy (getF : α → String → DocVal) (key : String) (dir : Int)
    (l : List α) : List α :=
  stableSort (fun a b => decide (dir * compareThings (getF a key) (getF b key) ≤ 0)) l

/-- JS truthiness of an optional string: undefined and the empty string
are falsy. -/
def strTruthy : Option String → Bool
  | some s => s ≠ ""
  | none => false

/-- Sort direction from the order parameter, as the handlers compute it:
1 when order is asc, else -1. -/
def sortDir (order : String) : Int := if order == "asc" then 1 else -1

/-! ## Product data model -/

/-- A product document as persisted in the products collection. -/
structure StoredProduct where
  _id : String
  name : String
  price : Int
  category : String
  description : Option String
deriving DecidableEq, Repr

/-- A product document as placed in a response payload: the stored
fields plus the external id attribute, which is absent until fixId runs. -/
structure ProductOut where
  _id : String
  id : Option String
  name : String
  price : Int
  category : String
  description : Option String
deriving DecidableEq, Repr

/-- A store-returned product, before any normalization: no external id. -/
def StoredProduct.toOut (p : StoredProduct) : ProductOut :=
  { _id := p._id, id := none, name := p.name, price := p.price,
    category := p.category, description := p.description }

/-- fixId from the product routes: copies the internal _id onto the
external id attribute. The JS function mutates its argument in place;
this is the mutated document. -/
def ProductOut.fixId (p : ProductOut) : ProductOut := { p with id := some p._id }

/-- Field access on a stored product by field name, with undefined for
an absent description and for unknown field names. -/
def StoredProduct.getField (p : StoredProduct) : String → DocVal
  | "_id" => .str p._id
  | "name" => .str p.name
  | "price" => .num p.price
  | "category" => .str p.category
  | "description" =>
      match p.description with
      | some d => .str d
      | none => .missingVal
  | _ => .missingVal

/-! ## Product list endpoint -/

/-- The product list querystring after schema validation and default
application. -/
structure ProductListQuery where
  category : Option String
  minPrice : Option Int
  maxPrice : Option Int
  page : Int
  size : Int
  sortBy : String
  order : String
deriving DecidableEq, Repr

/-- The product list querystring as received, before defaults. -/
structure RawProductListQuery where
  category : Option String
  minPrice : Option Int
  maxPrice : Option Int
  page : Option Int
  size : Option Int
  sortBy : Option String
  order : Option String
deriving DecidableEq, Repr

/-- The schema defaults of the product list endpoint: page 1, size 10,
sortBy price, order asc. -/
def applyListDefaults (q : RawProductListQuery) : ProductListQuery :=
  { category := q.category, minPrice := q.minPrice, maxPrice := q.maxPrice,
    page := q.page.getD 1, size := q.size.getD 10,
    sortBy := q.sortBy.getD "price", order := q.order.getD "asc" }

/-- The price clause of the filter object: optional lower and upper
bound on the price field. -/
structure PriceClause where
  gte : Option Int
  lte : Option Int
deriving DecidableEq, Repr

/-- The filter object built by the product list handler. -/
structure ProductFilters where
  category : Option String
  price : Option PriceClause
deriving DecidableEq, Repr

/-- Price clause construction as both product handlers write it: when
minPrice is not undefined the clause starts as a lower bound; when
maxPrice is not undefined the upper bound is merged by spreading the
previous clause (spreading undefined keeps only the upper bound). -/
def buildPriceClause (minP maxP : Option Int) : Option PriceClause :=
  let p1 : Option PriceClause :=
    match minP with
    | some v => some { gte := some v, lte := none }
    | none => none
  match maxP with
  | some v =>
      some { gte := match p1 with
                    | some pc => pc.gte
                    | none => none,
             lte := some v }
  | none => p1

/-- Filter construction in the product list handler: the category clause
is added only when the category parameter is truthy, the price bounds
when the parameters are not undefined. -/
def productListFilters (q : ProductListQuery) : ProductFilters :=
  { category := if strTruthy q.category then q.category else none,
    price := buildPriceClause q.minPrice q.maxPrice }

/-- Whether a price satisfies a price clause (both bounds conjoined). -/
def matchesPriceClause (pc : PriceClause) (v : Int) : Bool :=
  (match pc.gte with
   | some lo => decide (lo ≤ v)
   | none => true) &&
  (match pc.lte with
   | some hi => decide (v ≤ hi)
   | none => true)

/-- nedb document matching against the product filter object: every
clause present must hold. -/
def matchesProductFilters (f : ProductFilters) (p : StoredProduct) : Bool :=
  (match f.category with
   | some c => p.category == c
   | none => true) &&
  (match f.price with
   | some pc => matchesPriceClause pc p.price
   | none => true)

/-- The product list response payload. -/
structure ProductListRes where
  total : Nat
  products : List ProductOut
deriving DecidableEq, Repr

/-- The product list handler: counts the matching documents, then finds,
sorts, skips and limits; the resulting page is sent as-is, without any
id fix-up. -/
def productListHandler (q : ProductListQuery) (store : List StoredProduct) :
    ProductListRes :=
  let filters := productListFilters q
  let matching := store.filter (matchesProductFilters filters)
  let total := matching.length
  let sorted := nedbSortBy StoredProduct.getField q.sortBy (sortDir q.order) matching
  let page := cursorWindow sorted ((q.page - 1) * q.size) q.size
  { total := total, products := page.map StoredProduct.toOut }

/-! ## Product get, create, update, delete endpoints -/

/-- A response with an HTTP status code and an optional JSON body
(error message bodies are not modelled). -/
structure ApiRes (α : Type) where
  status : Nat
  body : Option α
deriving DecidableEq, Repr

/-- The product get handler: findOne on the internal id; 404 when
absent, otherwise the document normalized by fixId. -/
def productGetHandler (id : String) (store : List StoredProduct) :
    ApiRes ProductOut :=
  match store.find? (fun p => p._id == id) with
  | none => { status := 404, body := none }
  | some p => { status := 200, body := some p.toOut.fixId }

/-- The body of a product creation request after schema validation:
name, price and category are required, description optional. -/
structure ProductBody where
  name : String
  price : Int
  category : String
  description : Option String
deriving DecidableEq, Repr

/-- The product creation handler. The store assigns the fresh internal
identifier; it enters the model as the newId argument. Returns the 201
response (the inserted document normalized by fixId) and the new store. -/
def productCreateHandler (newId : String) (body : ProductBody)
    (store : List StoredProduct) : ApiRes ProductOut × List StoredProduct :=
  let inserted : StoredProduct :=
    { _id := newId, name := body.name, price := body.price,
      category := body.category, description := body.description }
  ({ status := 201, body := some inserted.toOut.fixId }, store ++ [inserted])

/-- The body of a product update request: every field optional, no
additional properties admitted by the schema. -/
structure ProductUpdateBody where
  name : Option String
  price : Option Int
  category : Option String
  description : Option String
deriving DecidableEq, Repr

/-- nedb update with a $set of the provided fields: each field present
in the body overwrites the stored one, absent fields are left alone. -/
def applySet (b : ProductUpdateBody) (p : StoredProduct) : StoredProduct :=
  { _id := p._id,
    name := b.name.getD p.name,
    price := b.price.getD p.price,
    category := b.category.getD p.category,
    description :=
      match b.description with
      | some d => some d
      | none => p.description }

/-- Replace the first document carrying the given id by its updated
version. -/
def updateFirstById (id : String) (b : ProductUpdateBody) :
    List StoredProduct → List StoredProduct
  | [] => []
  | p :: ps =>
      if p._id == id then applySet b p :: ps
      else p :: updateFirstById id b ps

/-- The product update handler: a single-document $set update with
returnUpdatedDocs; 404 when the id matches nothing, otherwise the
updated document normalized by fixId. -/
def productUpdateHandler (id : String) (b : ProductUpdateBody)
    (store : List StoredProduct) : ApiRes ProductOut × List StoredProduct :=
  match store.find? (fun p => p._id == id) with
  | none => ({ status := 404, body := none }, store)
  | some p =>
      ({ status := 200, body := some (applySet b p).toOut.fixId },
       updateFirstById id b store)

/-- nedb remove with multi false: removes the first matching document,
returning the number removed together with the new collection. -/
def removeOneById (getId : α → String) (id : String) (l : List α) :
    Nat × List α :=
  if l.any (fun d => getId d == id) then
    (1, l.eraseP (fun d => getId d == id))
  else (0, l)

/-- The product delete handler: 404 when the remove touched nothing,
otherwise 204 with no content. -/
def productDeleteHandler (id : String) (store : List StoredProduct) :
    ApiRes Unit × List StoredProduct :=
  let r := removeOneById (fun p => p._id) id store
  if r.1 = 0 then ({ status := 404, body := none }, r.2)
  else ({ status := 204, body := none }, r.2)

/-! ## The search endpoint and its regular expressions

The search handler compiles the raw search parameter with the RegExp
constructor and the i flag. The pattern language is modelled by formal
regular expressions over characters; the i flag is modelled by lowering
both the pattern's literal characters and the input. The modelled
fragment covers literal characters, alternation and the greedy
quantifiers; grouping, classes, escapes, anchors, the dot and lazy
quantifiers are outside it and make compilation fail in the model (no
theorem below depends on a pattern outside the fragment). -/

/-- JS regex patterns, as formal regular expressions over characters. -/
abbrev JsRegex := RegularExpression Char

/-- One-or-more, the greedy + quantifier. -/
def regexPlusQ (r : JsRegex) : JsRegex := r * r.star

/-- Zero-or-one, the ? quantifier. -/
def regexOptQ (r : JsRegex) : JsRegex := r + 1

/-- The ECMAScript pattern syntax characters (regex metacharacters). -/
def regexMetachars : List Char :=
  ['^', '$', '\\', '.', '*', '+', '?', '(', ')', '[', ']', '\x7b', '\x7d', '|']

/-- A character the pattern grammar treats as a literal. -/
def isLiteralRegexChar (c : Char) : Bool := decide (c ∉ regexMetachars)

/-- Close the running sequence: append the pending atom, if any. -/
def flushAtom (done : JsRegex) (last : Option (JsRegex × Bool)) : JsRegex :=
  match last with
  | none => done
  | some (a, _) => done * a

/-- Fold completed alternatives (accumulated in reverse) together with
the running sequence into one alternation. -/
def foldAlts (alts : List JsRegex) (current : JsRegex) : JsRegex :=
  match alts with
  | [] => current
  | a :: rest => foldAlts rest (a + current)

/-- Apply a quantifier to the pending atom: fails when there is nothing
to repeat or when it was already quantified (a SyntaxError in JS). -/
def quantifyLast (f : JsRegex → JsRegex) :
    Option (JsRegex × Bool) → Option (Option (JsRegex × Bool))
  | some (a, false) => some (some (f a, true))
  | _ => none

/-- The pattern parser loop. The state carries the completed
alternatives, the sequence built so far, and the pending atom together
with a flag telling whether it was already quantified (a second
quantifier, or a quantifier with nothing to repeat, is a SyntaxError
in JS and a parse failure here). Literal characters are lowered to
model the i flag. -/
def parseRegexLoop (alts : List JsRegex) (done : JsRegex)
    (last : Option (JsRegex × Bool)) : List Char → Option JsRegex
  | [] => some (foldAlts alts (flushAtom done last))
  | c :: cs =>
      if c == '|' then
        parseRegexLoop (flushAtom done last :: alts) 1 none cs
      else if c == '+' then
        (quantifyLast regexPlusQ last).bind fun l => parseRegexLoop alts done l cs
      else if c == '*' then
        (quantifyLast RegularExpression.star last).bind fun l =>
          parseRegexLoop alts done l cs
      else if c == '?' then
        (quantifyLast regexOptQ last).bind fun l => parseRegexLoop alts done l cs
      else if isLiteralRegexChar c then
        parseRegexLoop alts (flushAtom done last)
          (some (RegularExpression.char c.toLower, false)) cs
      else none

/-- new RegExp of the pattern with the i flag, in the modelled fragment. -/
def parseRegex (pattern : String) : Option JsRegex :=
  parseRegexLoop [] 1 none pattern.data

/-- RegExp.test with the i flag: the pattern (whose literals were
lowered) matches some contiguous run of the lowered input. -/
def jsRegexTest (r : JsRegex) (s : String) : Bool :=
  (s.data.map Char.toLower).tails.any fun suf =>
    suf.inits.any fun pre => r.rmatch pre

/-- The search querystring after schema validation and defaults (the
page, size, sortBy and order defaults equal those of the list
endpoint). -/
structure SearchQuery where
  category : Option String
  minPrice : Option Int
  maxPrice : Option Int
  search : Option String
  page : Int
  size : Int
  sortBy : String
  order : String
deriving DecidableEq, Repr

/-- The filter object built by the search handler: the list filters
plus the disjunctive regex clause over name and description. -/
structure SearchFilters where
  category : Option String
  price : Option PriceClause
  orClause : Option JsRegex

/-- Filter construction in the search handler: category when truthy,
price bounds when not undefined, and, when the search parameter is
truthy, the disjunctive clause with the compiled pattern. A pattern the
constructor rejects (or one outside the modelled fragment) makes the
construction fail, as the thrown error would. -/
def searchFilters (q : SearchQuery) : Option SearchFilters :=
  if strTruthy q.search then
    match parseRegex (q.search.getD "") with
    | some r =>
        some { category := if strTruthy q.category then q.category else none,
               price := buildPriceClause q.minPrice q.maxPrice,
               orClause := some r }
    | none => none
  else
    some { category := if strTruthy q.category then q.category else none,
           price := buildPriceClause q.minPrice q.maxPrice,
           orClause := none }

/-- nedb regex comparison on a field: a string field must pass the
test, a missing field never matches. -/
def fieldRegexMatch (r : JsRegex) : Option String → Bool
  | some s => jsRegexTest r s
  | none => false

/-- Document matching against the search filter object: the category
and price clauses as in the list handler, and the or-clause holds when
the name or the description matches the regex. -/
def matchesSearchFilters (f : SearchFilters) (p : StoredProduct) : Bool :=
  (match f.category with
   | some c => p.category == c
   | none => true) &&
  (match f.price with
   | some pc => matchesPriceClause pc p.price
   | none => true) &&
  (match f.orClause with
   | some r => fieldRegexMatch r (some p.name) || fieldRegexMatch r p.description
   | none => true)

/-- The search handler: the same count, find, sort, skip and limit
pipeline as the list handler, on the search filters; the page is then
normalized in place by forEach fixId before being sent. A pattern the
RegExp constructor rejects makes the request fail. -/
def productSearchHandler (q : SearchQuery) (store : List StoredProduct) :
    Option ProductListRes :=
  match searchFilters q with
  | none => none
  | some f =>
      let matching := store.filter (matchesSearchFilters f)
      let total := matching.length
      let sorted := nedbSortBy StoredProduct.getField q.sortBy (sortDir q.order) matching
      let page := cursorWindow sorted ((q.page - 1) * q.size) q.size
      some { total := total, products := page.map (fun p => p.toOut.fixId) }

/-- Case-insensitive substring containment: the lowered pattern occurs
as a contiguous run of the lowered text. -/
def ciContains (pat text : String) : Bool :=
  (text.data.map Char.toLower).tails.any fun suf =>
    (pat.data.map Char.toLower).isPrefixOf suf

/-- Defined from the claim's words, for comparison with the code: keep
a product when it passes the list filters and its name or description
contains the search string case-insensitively (an absent description
contains nothing). -/
def searchSpecFilter (q : SearchQuery) (s : String) (p : StoredProduct) : Bool :=
  matchesProductFilters
    { category := if strTruthy q.category then q.category else none,
      price := buildPriceClause q.minPrice q.maxPrice } p
  && (ciContains s p.name ||
      (match p.description with
       | some d => ciContains s d
       | none => false))

/-- Defined from the claim's words, for comparison with the code: the
search result as the list result additionally restricted by the
case-insensitive substring match, normalized. -/
def searchSpecResult (q : SearchQuery) (s : String) (store : List StoredProduct) :
    ProductListRes :=
  let matching := store.filter (searchSpecFilter q s)
  let sorted := nedbSortBy StoredProduct.getField q.sortBy (sortDir q.order) matching
  let page := cursorWindow sorted ((q.page - 1) * q.size) q.size
  { total := matching.length, products := page.map (fun p => p.toOut.fixId) }

/-! ## Orders data model and endpoints -/

/-- An item of an order: a product reference and a quantity. -/
structure OrderItem where
  productId : String
  quantity : Int
deriving DecidableEq, Repr

/-- An order document as persisted in the orders collection. -/
structure StoredOrder where
  _id : String
  customer : String
  items : List OrderItem
  totalAmount : Int
  status : String
  createdAt : String
deriving DecidableEq, Repr

/-- An order document as placed in a response payload. -/
structure OrderOut where
  _id : String
  id : Option String
  customer : String
  items : List OrderItem
  totalAmount : Int
  status : String
  createdAt : String
deriving DecidableEq, Repr

/-- A store-returned order, before any normalization. -/
def StoredOrder.toOut (o : StoredOrder) : OrderOut :=
  { _id := o._id, id := none, customer := o.customer, items := o.items,
    totalAmount := o.totalAmount, status := o.status, createdAt := o.createdAt }

/-- fixId from the orders routes: the same mutation as in the product
routes, on an order document. -/
def OrderOut.fixId (o : OrderOut) : OrderOut := { o with id := some o._id }

/-- The value of a call to fixId: the JS function body has no return
statement, so the call itself evaluates to undefined, whatever the
mutation did to the argument. -/
def fixIdCallValue (_o : OrderOut) : Option OrderOut := none

/-- Field access on a stored order by field name (the only sort key the
code uses is createdAt; the items array never serves as one). -/
def StoredOrder.getField (o : StoredOrder) : String → DocVal
  | "_id" => .str o._id
  | "customer" => .str o.customer
  | "totalAmount" => .num o.totalAmount
  | "status" => .str o.status
  | "createdAt" => .str o.createdAt
  | _ => .missingVal

/-- The orders list querystring after schema defaults (page 1, size 10). -/
structure OrdersListQuery where
  page : Int
  size : Int
deriving DecidableEq, Repr

/-- The orders list response payload: the orders field holds the values
produced by mapping fixId over the page. -/
structure OrdersListRes where
  total : Nat
  orders : List (Option OrderOut)
deriving DecidableEq, Repr

/-- The orders list handler: counts all orders, finds them sorted by
createdAt descending with skip and limit, and sends the array obtained
by mapping fixId over the page. fixId returns undefined, so every
element of the sent array is the call's value, undefined. -/
def ordersListHandler (q : OrdersListQuery) (store : List StoredOrder) :
    OrdersListRes :=
  let total := store.length
  let sorted := nedbSortBy StoredOrder.getField "createdAt" (-1) store
  let page := cursorWindow sorted ((q.page - 1) * q.size) q.size
  { total := total, orders := page.map (fun o => fixIdCallValue o.toOut) }

/-- The orders get handler: findOne on the internal id; 404 when
absent, otherwise the document normalized by fixId. -/
def ordersGetHandler (id : String) (store : List StoredOrder) :
    ApiRes OrderOut :=
  match store.find? (fun o => o._id == id) with
  | none => { status := 404, body := none }
  | some o => { status := 200, body := some o.toOut.fixId }

/-- The body of an order creation request after schema validation. -/
structure OrderBody where
  customer : String
  items : List OrderItem
deriving DecidableEq, Repr

/-- The mock price calculation: reduce over the items, adding quantity
times 10 for each, starting from 0. -/
def itemsTotal (items : List OrderItem) : Int :=
  items.foldl (fun total it => total + it.quantity * 10) 0

/-- The order creation handler. The store assigns the internal id and
the clock supplies the creation instant; both enter the model as
arguments. Returns the 201 response (the inserted order normalized by
fixId) and the new store. -/
def ordersCreateHandler (newId now : String) (body : OrderBody)
    (store : List StoredOrder) : ApiRes OrderOut × List StoredOrder :=
  let totalAmount := itemsTotal body.items
  let newOrder : StoredOrder :=
    { _id := newId, customer := body.customer, items := body.items,
      totalAmount := totalAmount, status := "Pending", createdAt := now }
  ({ status := 201, body := some newOrder.toOut.fixId }, store ++ [newOrder])

/-- fixId applied to a primitive number: in the strict-mode compiled
module, creating a property on a number throws a TypeError, so the
call never returns normally. -/
def fixIdOnNumber (_n : Nat) : Option Unit := none

/-- The orders delete handler: 404 when the remove touched nothing.
Otherwise the source applies fixId to the numeric remove count before
replying; that property assignment on a number throws, the error
propagates to the framework (a generic 500) and no 204 is sent — the
removal itself has already happened. The first component is the
handler's own response, none when the TypeError is thrown. -/
def ordersDeleteHandler (id : String) (store : List StoredOrder) :
    Option (ApiRes Unit) × List StoredOrder :=
  let r := removeOneById (fun o => o._id) id store
  if r.1 = 0 then (some { status := 404, body := none }, r.2)
  else
    match fixIdOnNumber r.1 with
    | some _ => (some { status := 204, body := none }, r.2)
    | none => (none, r.2)

/-- An order item as received in the creation request body, before
validation. -/
structure OrderItemRaw where
  productId : Option String
  quantity : Option Int
deriving DecidableEq, Repr

/-- An order creation body as received, before validation. -/
structure OrderBodyRaw where
  customer : Option String
  items : Option (List OrderItemRaw)
deriving DecidableEq, Repr

/-- The body schema of the order creation endpoint: customer and items
are required, and every item requires productId and quantity; quantity
is a plain number, with no minimum and no integrality constraint in
the schema. -/
def validateOrderBody (b : OrderBodyRaw) : Option OrderBody :=
  match b.customer, b.items with
  | some c, some its =>
      (its.mapM fun (it : OrderItemRaw) =>
        match it.productId, it.quantity with
        | some pid, some q => some { productId := pid, quantity := q : OrderItem }
        | _, _ => none).map fun items => { customer := c, items := items }
  | _, _ => none

/-! ## Helper lemmas -/

theorem stableInsert_perm (le : α → α → Bool) (x : α) (l : List α) :
    (stableInsert le x l).Perm (x :: l) := by
  induction l with
  | nil => simp [stableInsert]
  | cons y ys ih =>
      by_cases h : le x y = true
      · simp [stableInsert, h]
      · simp only [stableInsert, h, if_false]
        exact (ih.cons y).trans (List.Perm.swap x y ys)

theorem stableSort_perm (le : α → α → Bool) (l : List α) :
    (stableSort le l).Perm l := by
  induction l with
  | nil => simp [stableSort]
  | cons x xs ih => exact (stableInsert_perm le x (stableSort le xs)).trans (ih.cons x)

theorem mem_nedbSortBy {getF : α → String → DocVal} {key : String} {dir : Int}
    {l : List α} {a : α} : a ∈ nedbSortBy getF key dir l ↔ a ∈ l :=
  (stableSort_perm _ l).mem_iff

theorem mem_of_mem_jsSlice {l : List α} {a b : Int} {x : α}
    (h : x ∈ jsSlice l a b) : x ∈ l := by
  unfold jsSlice at h
  exact List.mem_of_mem_drop (List.mem_of_mem_take h)

theorem mem_of_mem_cursorWindow {l : List α} {sk lim : Int} {x : α}
    (h : x ∈ cursorWindow l sk lim) : x ∈ l :=
  mem_of_mem_jsSlice h

theorem jsSlice_nat (l : List α) (a b : Nat) :
    jsSlice l (a : Int) (b : Int) = (l.drop a).take (b - a) := by
  unfold jsSlice
  have ha : ¬ ((a : Int) < 0) := by omega
  have hb : ¬ ((b : Int) < 0) := by omega
  simp only [ha, hb, if_false]
  have h1 : (min (a : Int) (l.length : Int)).toNat = min a l.length := by omega
  have h2 : (min (b : Int) (l.length : Int) - min (a : Int) (l.length : Int)).toNat
      = min b l.length - min a l.length := by omega
  rw [h1, h2]
  rcases le_or_lt a l.length with h | h
  · rw [min_eq_left h]
    rw [List.take_eq_take]
    rw [List.length_drop]
    omega
  · have hmin : min a l.length = l.length := min_eq_right h.le
    rw [hmin, List.drop_length]
    have : l.drop a = [] := List.drop_eq_nil_of_le h.le
    rw [this]
    simp

theorem cursorWindow_nat (l : List α) (A S : Nat) (hS : 1 ≤ S) :
    cursorWindow l (A : Int) (S : Int) = (l.drop A).take S := by
  unfold cursorWindow
  have hS0 : ¬ ((S : Int) = 0) := by omega
  by_cases h0 : (A : Int) = 0
  · rw [if_pos h0, if_neg hS0]
    have hA : A = 0 := by omega
    subst hA
    show jsSlice l 0 (0 + (S : Int)) = List.take S (List.drop 0 l)
    have : (0 : Int) + (S : Int) = ((S : Nat) : Int) := by omega
    rw [this]
    have h0' : (0 : Int) = ((0 : Nat) : Int) := rfl
    rw [h0', jsSlice_nat]
    simp
  · rw [if_neg h0, if_neg hS0]
    show jsSlice l (A : Int) ((A : Int) + (S : Int)) = List.take S (List.drop A l)
    have : (A : Int) + (S : Int) = ((A + S : Nat) : Int) := by omega
    rw [this, jsSlice_nat]
    congr 1
    omega

theorem isPrefixOf_eq_true {l₁ l₂ : List Char} :
    l₁.isPrefixOf l₂ = true ↔ ∃ t, l₁ ++ t = l₂ := by
  induction l₁ generalizing l₂ with
  | nil => simp [List.isPrefixOf]
  | cons a as ih =>
      cases l₂ with
      | nil => simp [List.isPrefixOf]
      | cons b bs => simp [List.isPrefixOf, ih]

theorem itemsTotal_eq_sum (items : List OrderItem) :
    itemsTotal items = (items.map fun it => it.quantity * 10).sum := by
  have gen : ∀ (l : List OrderItem) (a : Int),
      l.foldl (fun total it => total + it.quantity * 10) a
        = a + (l.map fun it => it.quantity * 10).sum := by
    intro l
    induction l with
    | nil => intro a; simp
    | cons x xs ih => intro a; simp [ih, add_assoc]
  simpa [itemsTotal] using gen items 0

/-! ## Sample documents used by concrete instantiations -/

/-- A concrete stored product. -/
def sampleProduct : StoredProduct :=
  { _id := "p1", name := "aab", price := 5, category := "c", description := none }

/-- A concrete stored order. -/
def sampleOrder : StoredOrder :=
  { _id := "o1", customer := "alice", items := [], totalAmount := 0,
    status := "Pending", createdAt := "2024-01-01T00:00:00.000Z" }

/-! ## Remove semantics -/

theorem removeOneById_of_absent (getId : α → String) {id : String} {l : List α}
    (h : ∀ x ∈ l, getId x ≠ id) : removeOneById getId id l = (0, l) := by
  have hc : l.any (fun d => getId d == id) = false := by
    rw [List.any_eq_false]
    intro x hx
    simpa using h x hx
  unfold removeOneById
  rw [hc]
  simp

theorem removeOneById_of_present (getId : α → String) {id : String} {l : List α}
    (h : ∃ x ∈ l, getId x = id) :
    (removeOneById getId id l).1 = 1 ∧
    (removeOneById getId id l).2.length + 1 = l.length := by
  obtain ⟨x, hx, hxid⟩ := h
  have hc : l.any (fun d => getId d == id) = true :=
    List.any_eq_true.mpr ⟨x, hx, by simpa using hxid⟩
  have hlen : (l.eraseP (fun d => getId d == id)).length = l.length - 1 :=
    List.length_eraseP_of_mem hx (by simpa using hxid)
  have hpos : 0 < l.length := List.length_pos_of_mem hx
  have hr : removeOneById getId id l = (1, l.eraseP (fun d => getId d == id)) := by
    unfold removeOneById
    rw [hc]
    simp
  rw [hr]
  exact ⟨rfl, by simp only []; omega⟩

/-! ## Claim theorems -/

/-- C2 (code bug evidence): with one stored order and the default page
and size, the orders list response reports total 1 but its orders array
is a single undefined value, not the normalized order document — the
handler sends the result of mapping fixId, and fixId returns undefined.
The second conjunct records that the normalized document itself is not
undefined, so the sent array differs from the claimed one. -/
theorem C2_order_list_divergence :
    ordersListHandler { page := 1, size := 10 } [sampleOrder]
      = { total := 1, orders := [none] } ∧
    (some sampleOrder.toOut.fixId : Option OrderOut) ≠ none := by
  exact ⟨by decide, by decide⟩

/-- C5: every created order has totalAmount equal to the sum over its
items of quantity times 10, status Pending and createdAt the creation
instant; the concrete items of quantities 2 and 3 total 50. The handler
takes no product data, so no lookup can influence the total. -/
theorem C5_order_total (newId now : String) (body : OrderBody)
    (store : List StoredOrder) :
    ((ordersCreateHandler newId now body store).1).status = 201 ∧
    ((ordersCreateHandler newId now body store).1).body
      = some { _id := newId, id := some newId, customer := body.customer,
               items := body.items,
               totalAmount := (body.items.map fun it => it.quantity * 10).sum,
               status := "Pending", createdAt := now } ∧
    itemsTotal [{ productId := "a", quantity := 2 },
                { productId := "b", quantity := 3 }] = 50 := by
  refine ⟨rfl, ?_, by decide⟩
  simp [ordersCreateHandler, StoredOrder.toOut, OrderOut.fixId, itemsTotal_eq_sum]

/-- C7 (code bug evidence): for products, deleting an absent id gives
404 with the collection unchanged, and deleting a present id removes
exactly one document and gives 204 with no content, as claimed; the
orders 404 branch is likewise as claimed. But on a present order id
the handler, after removing the document, applies fixId to the numeric
remove count; the property assignment throws, so no 204 response is
produced (the framework answers a generic 500) although exactly one
document was removed. -/
theorem C7_delete_semantics (id : String) (pstore : List StoredProduct)
    (ostore : List StoredOrder) :
    ((∀ p ∈ pstore, p._id ≠ id) →
      (productDeleteHandler id pstore).1.status = 404 ∧
      (productDeleteHandler id pstore).2 = pstore) ∧
    ((∃ p ∈ pstore, p._id = id) →
      (productDeleteHandler id pstore).1.status = 204 ∧
      (productDeleteHandler id pstore).1.body = none ∧
      (productDeleteHandler id pstore).2.length + 1 = pstore.length) ∧
    ((∀ o ∈ ostore, o._id ≠ id) →
      (ordersDeleteHandler id ostore).1 = some { status := 404, body := none } ∧
      (ordersDeleteHandler id ostore).2 = ostore) ∧
    ((∃ o ∈ ostore, o._id = id) →
      (ordersDeleteHandler id ostore).1 = none ∧
      (ordersDeleteHandler id ostore).2.length + 1 = ostore.length) := by
  refine ⟨?_, ?_, ?_, ?_⟩
  · intro h
    have hr := removeOneById_of_absent (fun p : StoredProduct => p._id) h
    simp [productDeleteHandler, hr]
  · intro h
    have hr := removeOneById_of_present (fun p : StoredProduct => p._id) h
    have h1 : ¬ ((removeOneById (fun p : StoredProduct => p._id) id pstore).1 = 0) := by
      omega
    simp only [productDeleteHandler, if_neg h1]
    exact ⟨trivial, trivial, hr.2⟩
  · intro h
    have hr := removeOneById_of_absent (fun o : StoredOrder => o._id) h
    constructor
    · simp [ordersDeleteHandler, hr]
    · simp [ordersDeleteHandler, hr]
  · intro h
    have hr := removeOneById_of_present (fun o : StoredOrder => o._id) h
    have h1 : ¬ ((removeOneById (fun o : StoredOrder => o._id) id ostore).1 = 0) := by
      omega
    simp only [ordersDeleteHandler, fixIdOnNumber, if_neg h1]
    exact ⟨trivial, hr.2⟩

/-- C7 witness: the four branches at concrete stores; on the present
order id the outcome is the thrown error, not a 204. -/
theorem C7_delete_semantics_witness :
    ((productDeleteHandler "zzz" [sampleProduct]).1.status = 404 ∧
     (productDeleteHandler "zzz" [sampleProduct]).2 = [sampleProduct]) ∧
    ((productDeleteHandler "p1" [sampleProduct]).1.status = 204 ∧
     (productDeleteHandler "p1" [sampleProduct]).1.body = none ∧
     (productDeleteHandler "p1" [sampleProduct]).2.length + 1 = [sampleProduct].length) ∧
    ((ordersDeleteHandler "zzz" [sampleOrder]).1 = some { status := 404, body := none } ∧
     (ordersDeleteHandler "zzz" [sampleOrder]).2 = [sampleOrder]) ∧
    ((ordersDeleteHandler "o1" [sampleOrder]).1 = none ∧
     (ordersDeleteHandler "o1" [sampleOrder]).2.length + 1 = [sampleOrder].length) :=
  ⟨(C7_delete_semantics "zzz" [sampleProduct] [sampleOrder]).1 (by decide),
   (C7_delete_semantics "p1" [sampleProduct] [sampleOrder]).2.1 (by decide),
   (C7_delete_semantics "zzz" [sampleProduct] [sampleOrder]).2.2.1 (by decide),
   (C7_delete_semantics "o1" [sampleProduct] [sampleOrder]).2.2.2 (by decide)⟩

/-- C6: a product update merges only the provided fields into the
existing document and returns the updated document normalized; an
absent id yields 404. Field by field: an absent body field leaves the
stored value, a present one overwrites it, and the internal id is
never touched. -/
theorem C6_partial_update (id : String) (b : ProductUpdateBody)
    (store : List StoredProduct) :
    (store.find? (fun p => p._id == id) = none →
      (productUpdateHandler id b store).1.status = 404 ∧
      (productUpdateHandler id b store).2 = store) ∧
    (∀ p, store.find? (fun p' => p'._id == id) = some p →
      (productUpdateHandler id b store).1.status = 200 ∧
      (productUpdateHandler id b store).1.body = some (applySet b p).toOut.fixId ∧
      (b.name = none → (applySet b p).name = p.name) ∧
      (∀ v, b.name = some v → (applySet b p).name = v) ∧
      (b.price = none → (applySet b p).price = p.price) ∧
      (∀ v, b.price = some v → (applySet b p).price = v) ∧
      (b.category = none → (applySet b p).category = p.category) ∧
      (∀ v, b.category = some v → (applySet b p).category = v) ∧
      (b.description = none → (applySet b p).description = p.description) ∧
      (∀ v, b.description = some v → (applySet b p).description = some v) ∧
      (applySet b p)._id = p._id) := by
  constructor
  · intro h
    constructor
    · simp [productUpdateHandler, h]
    · simp [productUpdateHandler, h]
  · intro p hp
    refine ⟨by simp [productUpdateHandler, hp], by simp [productUpdateHandler, hp],
      ?_, ?_, ?_, ?_, ?_, ?_, ?_, ?_, ?_⟩
    · intro h; simp [applySet, h]
    · intro v h; simp [applySet, h]
    · intro h; simp [applySet, h]
    · intro v h; simp [applySet, h]
    · intro h; simp [applySet, h]
    · intro v h; simp [applySet, h]
    · intro h; simp [applySet, h]
    · intro v h; simp [applySet, h]
    · rfl

/-- C6 witness: updating the sample product with a body carrying only
price 42 returns 200 and changes only the price. -/
theorem C6_partial_update_witness :
    (productUpdateHandler "p1" ⟨none, some 42, none, none⟩ [sampleProduct]).1.status = 200 ∧
    (applySet ⟨none, some 42, none, none⟩ sampleProduct).price = 42 ∧
    (applySet ⟨none, some 42, none, none⟩ sampleProduct).name = sampleProduct.name ∧
    (applySet ⟨none, some 42, none, none⟩ sampleProduct).category = sampleProduct.category ∧
    (applySet ⟨none, some 42, none, none⟩ sampleProduct).description = sampleProduct.description ∧
    (productUpdateHandler "zzz" ⟨none, some 42, none, none⟩ [sampleProduct]).1.status = 404 := by
  obtain ⟨h200, hbody, hn0, hn1, hp0, hp1, hc0, hc1, hd0, hd1, hid⟩ :=
    (C6_partial_update "p1" ⟨none, some 42, none, none⟩ [sampleProduct]).2
      sampleProduct (by decide)
  exact ⟨h200, hp1 42 rfl, hn0 rfl, hc0 rfl, hd0 rfl,
    ((C6_partial_update "zzz" ⟨none, some 42, none, none⟩ [sampleProduct]).1 (by decide)).1⟩

/-- C1 fails as stated: the product list handler sends the found page
without any normalization step, so a listed product carries no external
id; refuted at a one-product store with the default query. -/
theorem C1_counterexample :
    ¬ (∀ (q : ProductListQuery) (store : List StoredProduct),
        ∀ p ∈ (productListHandler q store).products, p.id = some p._id) := by
  intro h
  have := h { category := none, minPrice := none, maxPrice := none,
              page := 1, size := 10, sortBy := "price", order := "asc" }
    [sampleProduct] sampleProduct.toOut (by decide)
  exact absurd this (by decide)

/-- C1 amended: normalization holds for every single-document response
(product get, create and update; order get and create) and for the
search page, whose documents all carry an id equal to their internal
identifier; the product list page alone is sent unnormalized, its
documents carrying no external id at all. -/
theorem C1_normalization_amended :
    (∀ id store p, (productGetHandler id store).body = some p → p.id = some p._id) ∧
    (∀ newId body store p,
      ((productCreateHandler newId body store).1).body = some p → p.id = some p._id) ∧
    (∀ id b store p,
      ((productUpdateHandler id b store).1).body = some p → p.id = some p._id) ∧
    (∀ id store o, (ordersGetHandler id store).body = some o → o.id = some o._id) ∧
    (∀ newId now body store o,
      ((ordersCreateHandler newId now body store).1).body = some o → o.id = some o._id) ∧
    (∀ q store res, productSearchHandler q store = some res →
      ∀ p ∈ res.products, p.id = some p._id) ∧
    (∀ q store, ∀ p ∈ (productListHandler q store).products, p.id = none) := by
  refine ⟨?_, ?_, ?_, ?_, ?_, ?_, ?_⟩
  · intro id store p h
    unfold productGetHandler at h
    cases hf : store.find? (fun p' => p'._id == id) with
    | none => rw [hf] at h; exact absurd h (by simp)
    | some q =>
        rw [hf] at h
        simp only [Option.some.injEq] at h
        subst h
        rfl
  · intro newId body store p h
    simp only [productCreateHandler, Option.some.injEq] at h
    subst h
    rfl
  · intro id b store p h
    unfold productUpdateHandler at h
    cases hf : store.find? (fun p' => p'._id == id) with
    | none => rw [hf] at h; exact absurd h (by simp)
    | some q =>
        rw [hf] at h
        simp only [Option.some.injEq] at h
        subst h
        rfl
  · intro id store o h
    unfold ordersGetHandler at h
    cases hf : store.find? (fun o' => o'._id == id) with
    | none => rw [hf] at h; exact absurd h (by simp)
    | some q =>
        rw [hf] at h
        simp only [Option.some.injEq] at h
        subst h
        rfl
  · intro newId now body store o h
    simp only [ordersCreateHandler, Option.some.injEq] at h
    subst h
    rfl
  · intro q store res h p hp
    unfold productSearchHandler at h
    cases hf : searchFilters q with
    | none => rw [hf] at h; exact absurd h (by simp)
    | some f =>
        rw [hf] at h
        simp only [Option.some.injEq] at h
        subst h
        obtain ⟨sp, hsp, rfl⟩ := List.mem_map.mp hp
        rfl
  · intro q store p hp
    unfold productListHandler at hp
    obtain ⟨sp, hsp, rfl⟩ := List.mem_map.mp hp
    rfl

/-- C1 amended witness: the get response for the sample store carries
the normalized document. -/
theorem C1_normalization_amended_witness :
    sampleProduct.toOut.fixId.id = some sampleProduct.toOut.fixId._id :=
  C1_normalization_amended.1 "p1" [sampleProduct] sampleProduct.toOut.fixId (by decide)

/-- C9 fails as stated: the body schema constrains quantity only to be
a present number, so an item of quantity 0 passes validation and an
order is produced rather than rejected. -/
theorem C9_counterexample :
    ¬ (∀ (b : OrderBodyRaw) (ob : OrderBody), validateOrderBody b = some ob →
        ∀ it ∈ ob.items, 0 < it.quantity) := by
  intro h
  have := h { customer := some "c",
              items := some [{ productId := some "a", quantity := some 0 }] }
    { customer := "c", items := [{ productId := "a", quantity := 0 }] }
    (by decide) { productId := "a", quantity := 0 } (by decide)
  exact absurd this (by decide)

/-- Validation accepts any fully populated item list wrapped back into
raw form. -/
theorem mapM_wrap_items (items : List OrderItem) :
    List.mapM (fun it : OrderItemRaw =>
      match it.productId, it.quantity with
      | some pid, some q => some { productId := pid, quantity := q : OrderItem }
      | _, _ => none)
      (items.map fun it => { productId := some it.productId, quantity := some it.quantity })
      = some items := by
  rw [← List.mapM'_eq_mapM]
  induction items with
  | nil => rfl
  | cons x xs ih => simp [List.mapM', ih]

/-- C9 amended: validation requires of each item only that productId
and quantity be present; every fully populated body passes, whatever
the sign of its quantities, the produced order totals quantity times 10
over the items, and nonpositive quantities yield a nonpositive
totalAmount instead of a rejection. -/
theorem C9_validation_amended (c : String) (items : List OrderItem) :
    validateOrderBody
      { customer := some c,
        items := some (items.map fun it =>
          { productId := some it.productId, quantity := some it.quantity }) }
      = some { customer := c, items := items } ∧
    (∀ newId now store,
      ((ordersCreateHandler newId now { customer := c, items := items } store).1).body
        = some { _id := newId, id := some newId, customer := c, items := items,
                 totalAmount := itemsTotal items, status := "Pending",
                 createdAt := now }) ∧
    ((∀ it ∈ items, it.quantity ≤ 0) → itemsTotal items ≤ 0) := by
  refine ⟨?_, ?_, ?_⟩
  · simp only [validateOrderBody]
    have h := mapM_wrap_items items
    exact h ▸ rfl
  · intro newId now store
    rfl
  · intro hq
    rw [itemsTotal_eq_sum]
    induction items with
    | nil => simp
    | cons x xs ih =>
        simp only [List.map_cons, List.sum_cons]
        have h1 : x.quantity * 10 ≤ 0 := by
          have := hq x (by simp)
          omega
        have h2 : (xs.map fun it => it.quantity * 10).sum ≤ 0 := by
          refine ih ?_
          intro it hit
          exact hq it (by simp [hit])
        omega

/-- C9 amended witness: a zero-quantity item passes validation and its
total is nonpositive. -/
theorem C9_validation_amended_witness :
    validateOrderBody
      { customer := some "c",
        items := some [{ productId := some "a", quantity := some 0 }] }
      = some { customer := "c", items := [{ productId := "a", quantity := 0 }] } ∧
    itemsTotal [{ productId := "a", quantity := 0 }] ≤ 0 := by
  constructor
  · have h := (C9_validation_amended "c" [{ productId := "a", quantity := 0 }]).1
    simpa using h
  · exact (C9_validation_amended "c" [{ productId := "a", quantity := 0 }]).2.2
      (by decide)

/-- C10: the presence checks are asymmetric. An empty category or
search parameter is treated exactly as an absent one by both filter
constructions (so the unfiltered set is what gets paginated), while a
minPrice or maxPrice of 0 contributes a genuine bound to the price
clause. -/
theorem C10_presence_asymmetry (minP maxP : Option Int) (pg sz : Int)
    (sb ord : String) (cat srch : Option String) (store : List StoredProduct) :
    productListFilters { category := some "", minPrice := minP, maxPrice := maxP,
                         page := pg, size := sz, sortBy := sb, order := ord }
      = productListFilters { category := none, minPrice := minP, maxPrice := maxP,
                             page := pg, size := sz, sortBy := sb, order := ord } ∧
    productListHandler { category := some "", minPrice := minP, maxPrice := maxP,
                         page := pg, size := sz, sortBy := sb, order := ord } store
      = productListHandler { category := none, minPrice := minP, maxPrice := maxP,
                             page := pg, size := sz, sortBy := sb, order := ord } store ∧
    searchFilters { category := some "", minPrice := minP, maxPrice := maxP,
                    search := srch, page := pg, size := sz, sortBy := sb, order := ord }
      = searchFilters { category := none, minPrice := minP, maxPrice := maxP,
                        search := srch, page := pg, size := sz, sortBy := sb, order := ord } ∧
    searchFilters { category := cat, minPrice := minP, maxPrice := maxP,
                    search := some "", page := pg, size := sz, sortBy := sb, order := ord }
      = searchFilters { category := cat, minPrice := minP, maxPrice := maxP,
                        search := none, page := pg, size := sz, sortBy := sb, order := ord } ∧
    buildPriceClause (some 0) maxP = some { gte := some 0, lte := maxP } ∧
    buildPriceClause minP (some 0) = some { gte := minP, lte := some 0 } := by
  have hemp : strTruthy (some "") = false := rfl
  have hnone : strTruthy none = false := rfl
  have h1 : productListFilters ⟨some "", minP, maxP, pg, sz, sb, ord⟩
      = productListFilters ⟨none, minP, maxP, pg, sz, sb, ord⟩ := by
    simp [productListFilters, hemp, hnone]
  refine ⟨h1, ?_, ?_, ?_, ?_, ?_⟩
  · unfold productListHandler
    rw [h1]
  · unfold searchFilters
    by_cases hs : strTruthy srch = true
    · rw [if_pos hs, if_pos hs]
      cases parseRegex (srch.getD "") with
      | none => rfl
      | some r => simp [hemp, hnone]
    · rw [if_neg hs, if_neg hs]
      simp [hemp, hnone]
  · simp [searchFilters, hemp, hnone]
  · cases maxP <;> rfl
  · cases minP <;> rfl

/-- The slice of a list from index a through index b inclusive: the
claim's description of a result page. -/
def listSlice (l : List α) (a b : Nat) : List α :=
  (l.drop a).take (b + 1 - a)

/-- C3 fails as stated: a size of 0 is falsy for the nedb limit, which
then falls back to the whole result length, so the returned page can be
longer than the requested size. -/
theorem C3_counterexample :
    ¬ (∀ (q : ProductListQuery) (store : List StoredProduct),
        (productListHandler q store).products.length ≤ q.size.toNat) := by
  intro h
  have := h { category := none, minPrice := none, maxPrice := none,
              page := 1, size := 0, sortBy := "price", order := "asc" }
    [sampleProduct]
  exact absurd this (by decide)

/-- C3 amended: for positive page and size the returned page equals the
slice of the full sorted result set from index (page-1)*size through
index page*size-1, its length is at most size, and total counts every
matching document ignoring pagination; the schema defaults are page 1,
size 10, sortBy price, order asc. -/
theorem C3_pagination_amended (P S : Nat) (hP : 1 ≤ P) (hS : 1 ≤ S)
    (cat : Option String) (minP maxP : Option Int) (sb ord : String)
    (store : List StoredProduct) :
    (productListHandler ⟨cat, minP, maxP, (P : Int), (S : Int), sb, ord⟩ store).products
      = (listSlice
          (nedbSortBy StoredProduct.getField sb (sortDir ord)
            (store.filter (matchesProductFilters
              (productListFilters ⟨cat, minP, maxP, (P : Int), (S : Int), sb, ord⟩))))
          ((P - 1) * S) (P * S - 1)).map StoredProduct.toOut ∧
    (productListHandler ⟨cat, minP, maxP, (P : Int), (S : Int), sb, ord⟩ store).products.length ≤ S ∧
    (productListHandler ⟨cat, minP, maxP, (P : Int), (S : Int), sb, ord⟩ store).total
      = (store.filter (matchesProductFilters
          (productListFilters ⟨cat, minP, maxP, (P : Int), (S : Int), sb, ord⟩))).length ∧
    applyListDefaults ⟨cat, minP, maxP, none, none, none, none⟩
      = ⟨cat, minP, maxP, 1, 10, "price", "asc"⟩ := by
  have hsorted :
      (productListHandler ⟨cat, minP, maxP, (P : Int), (S : Int), sb, ord⟩ store).products
        = (cursorWindow
            (nedbSortBy StoredProduct.getField sb (sortDir ord)
              (store.filter (matchesProductFilters
                (productListFilters ⟨cat, minP, maxP, (P : Int), (S : Int), sb, ord⟩))))
            (((P : Int) - 1) * (S : Int)) (S : Int)).map StoredProduct.toOut := rfl
  have hsk : ((P : Int) - 1) * (S : Int) = (((P - 1) * S : Nat) : Int) := by
    rw [Nat.cast_mul, Nat.cast_sub hP, Nat.cast_one]
  have hwin := cursorWindow_nat
    (nedbSortBy StoredProduct.getField sb (sortDir ord)
      (store.filter (matchesProductFilters
        (productListFilters ⟨cat, minP, maxP, (P : Int), (S : Int), sb, ord⟩))))
    ((P - 1) * S) S hS
  have harith : P * S - 1 + 1 - (P - 1) * S = S := by
    have h1 : (P - 1) * S = P * S - 1 * S := Nat.sub_mul P 1 S
    have h2 : S ≤ P * S := by
      calc S = 1 * S := (one_mul S).symm
        _ ≤ P * S := Nat.mul_le_mul_right S hP
    omega
  refine ⟨?_, ?_, rfl, rfl⟩
  · rw [hsorted, hsk, hwin]
    unfold listSlice
    rw [harith]
  · rw [hsorted, hsk, hwin]
    rw [List.length_map]
    exact le_trans (List.length_take_le _ _) (le_refl S)

/-- C3 amended witness: page 1 of size 2 over the one-product store. -/
theorem C3_pagination_amended_witness :
    (productListHandler ⟨none, none, none, ((1 : Nat) : Int), ((2 : Nat) : Int),
        "price", "asc"⟩ [sampleProduct]).products.length ≤ 2 :=
  (C3_pagination_amended 1 2 (by decide) (by decide) none none none
    "price" "asc" [sampleProduct]).2.1

/-- C4: the product list filter is conjunctive — a returned product has
exactly the requested category when a nonempty one was given (the
handler's presence test is truthiness, so only a nonempty category adds
a clause), and its price lies within the two bounds when both minPrice
and maxPrice were given. -/
theorem C4_conjunctive_filter (q : ProductListQuery) (store : List StoredProduct)
    (p : ProductOut) (hp : p ∈ (productListHandler q store).products) :
    (∀ c, q.category = some c → c ≠ "" → p.category = c) ∧
    (∀ lo hi, q.minPrice = some lo → q.maxPrice = some hi →
      lo ≤ p.price ∧ p.price ≤ hi) := by
  have hprod : (productListHandler q store).products
      = (cursorWindow (nedbSortBy StoredProduct.getField q.sortBy (sortDir q.order)
          (store.filter (matchesProductFilters (productListFilters q))))
          ((q.page - 1) * q.size) q.size).map StoredProduct.toOut := rfl
  rw [hprod] at hp
  obtain ⟨sp, hsp, rfl⟩ := List.mem_map.mp hp
  have hsp2 : sp ∈ store.filter (matchesProductFilters (productListFilters q)) :=
    mem_nedbSortBy.mp (mem_of_mem_cursorWindow hsp)
  have hmatch : matchesProductFilters (productListFilters q) sp = true :=
    (List.mem_filter.mp hsp2).2
  unfold matchesProductFilters at hmatch
  rw [Bool.and_eq_true] at hmatch
  obtain ⟨hcat, hprice⟩ := hmatch
  constructor
  · intro c hc hne
    have htr : strTruthy (some c) = true := by
      show decide (c ≠ "") = true
      rw [decide_eq_true_eq]
      exact hne
    have hclause : (productListFilters q).category = some c := by
      simp [productListFilters, hc, htr]
    rw [hclause] at hcat
    have : sp.category = c := by simpa using hcat
    simpa [StoredProduct.toOut] using this
  · intro lo hi hlo hhi
    have hpc : (productListFilters q).price = some { gte := some lo, lte := some hi } := by
      simp [productListFilters, buildPriceClause, hlo, hhi]
    rw [hpc] at hprice
    simp only [matchesPriceClause, Bool.and_eq_true, decide_eq_true_eq] at hprice
    exact ⟨hprice.1, hprice.2⟩

/-- C4 witness: with category c and price bounds 1 and 10, the sample
product is returned with the requested category and a price in range. -/
theorem C4_conjunctive_filter_witness :
    sampleProduct.toOut.category = "c" ∧
    (1 ≤ sampleProduct.toOut.price ∧ sampleProduct.toOut.price ≤ 10) := by
  have h := C4_conjunctive_filter
    ⟨some "c", some 1, some 10, 1, 10, "price", "asc"⟩ [sampleProduct]
    sampleProduct.toOut (by decide)
  exact ⟨h.1 "c" rfl (by decide), h.2 1 10 rfl rfl⟩

/-! ## The search claim: literal patterns match by substring -/

/-- A Bool equality from the equivalence of the two sides. -/
theorem bool_eq_of_iff {a b : Bool} (h : a = true ↔ b = true) : a = b := by
  cases a <;> cases b <;> simp_all

/-- Pointwise equal predicates give equal any. -/
theorem any_congr_here {l : List α} {p q : α → Bool} (h : ∀ a ∈ l, p a = q a) :
    l.any p = l.any q := by
  induction l with
  | nil => rfl
  | cons x xs ih =>
      simp only [List.any_cons]
      rw [h x (by simp), ih fun a ha => h a (by simp [ha])]

/-- Parsing a run of literal characters from a state with no pending
alternatives extends the running sequence by exactly those characters,
lowered. -/
theorem parseRegexLoop_literal (cs : List Char)
    (hcs : ∀ c ∈ cs, isLiteralRegexChar c = true)
    (done : JsRegex) (last : Option (JsRegex × Bool)) :
    ∃ r, parseRegexLoop [] done last cs = some r ∧
      ∀ x, r.rmatch x = true ↔
        ∃ u, (flushAtom done last).rmatch u = true ∧ x = u ++ cs.map Char.toLower := by
  induction cs generalizing done last with
  | nil =>
      refine ⟨foldAlts [] (flushAtom done last), rfl, ?_⟩
      intro x
      constructor
      · intro h
        exact ⟨x, h, by simp⟩
      · rintro ⟨u, hu, rfl⟩
        simpa using hu
  | cons c cs ih =>
      have hc := hcs c (by simp)
      have hcs' : ∀ c' ∈ cs, isLiteralRegexChar c' = true :=
        fun c' h' => hcs c' (by simp [h'])
      have hnotmem : c ∉ regexMetachars := of_decide_eq_true hc
      have h1 : (c == '|') = false := by
        rw [beq_eq_false_iff_ne]
        intro e
        subst e
        exact hnotmem (by decide)
      have h2 : (c == '+') = false := by
        rw [beq_eq_false_iff_ne]
        intro e
        subst e
        exact hnotmem (by decide)
      have h3 : (c == '*') = false := by
        rw [beq_eq_false_iff_ne]
        intro e
        subst e
        exact hnotmem (by decide)
      have h4 : (c == '?') = false := by
        rw [beq_eq_false_iff_ne]
        intro e
        subst e
        exact hnotmem (by decide)
      have hstep : parseRegexLoop [] done last (c :: cs)
          = parseRegexLoop [] (flushAtom done last)
              (some (RegularExpression.char c.toLower, false)) cs := by
        rw [parseRegexLoop]
        rw [if_neg (by simp [h1]), if_neg (by simp [h2]), if_neg (by simp [h3]),
            if_neg (by simp [h4]), if_pos hc]
      rw [hstep]
      obtain ⟨r, hr, hmatch⟩ :=
        ih hcs' (flushAtom done last) (some (RegularExpression.char c.toLower, false))
      refine ⟨r, hr, ?_⟩
      intro x
      rw [hmatch x]
      have hflush : flushAtom (flushAtom done last)
            (some (RegularExpression.char c.toLower, false))
          = (flushAtom done last) * RegularExpression.char c.toLower := rfl
      constructor
      · rintro ⟨u, hu, rfl⟩
        rw [hflush, RegularExpression.mul_rmatch_iff] at hu
        obtain ⟨t, v, rfl, ht, hv⟩ := hu
        rw [RegularExpression.char_rmatch_iff] at hv
        subst hv
        exact ⟨t, ht, by simp⟩
      · rintro ⟨u, hu, rfl⟩
        refine ⟨u ++ [c.toLower], ?_, by simp⟩
        rw [hflush, RegularExpression.mul_rmatch_iff]
        exact ⟨u, [c.toLower], rfl, hu,
          (RegularExpression.char_rmatch_iff _ _).mpr rfl⟩

/-- A pattern of literal characters compiles, and matches exactly the
lowered pattern characters. -/
theorem parseRegex_literal (s : String)
    (hs : ∀ c ∈ s.data, isLiteralRegexChar c = true) :
    ∃ r, parseRegex s = some r ∧
      ∀ x, r.rmatch x = true ↔ x = s.data.map Char.toLower := by
  obtain ⟨r, hr, hmatch⟩ := parseRegexLoop_literal s.data hs 1 none
  refine ⟨r, hr, ?_⟩
  intro x
  rw [hmatch x]
  have hone : ∀ u : List Char, (flushAtom 1 none).rmatch u = true ↔ u = [] := by
    intro u
    show (1 : JsRegex).rmatch u = true ↔ u = []
    exact RegularExpression.one_rmatch_iff u
  constructor
  · rintro ⟨u, hu, rfl⟩
    rw [hone u] at hu
    subst hu
    simp
  · rintro rfl
    exact ⟨[], (hone []).mpr rfl, by simp⟩

/-- For a regex matching exactly the lowered search characters, the
regex test coincides with case-insensitive substring containment. -/
theorem jsRegexTest_eq_ciContains {r : JsRegex} {s : String}
    (hmatch : ∀ x, r.rmatch x = true ↔ x = s.data.map Char.toLower) (t : String) :
    jsRegexTest r t = ciContains s t := by
  unfold jsRegexTest ciContains
  apply any_congr_here
  intro suf _
  apply bool_eq_of_iff
  rw [List.any_eq_true, isPrefixOf_eq_true]
  constructor
  · rintro ⟨pre, hpre, hm⟩
    rw [hmatch pre] at hm
    subst hm
    exact (List.mem_inits _ _).mp hpre
  · rintro ⟨t2, ht2⟩
    exact ⟨_, (List.mem_inits _ _).mpr ⟨t2, ht2⟩, (hmatch _).mpr rfl⟩

/-- C8 fails as stated: the search string is compiled unescaped, so a
pattern with metacharacters need not mean literal containment — with
the pattern a+b, the product named aab is returned although the string
a+b occurs in neither its name nor its (absent) description. -/
theorem C8_counterexample :
    ¬ (∀ (q : SearchQuery) (store : List StoredProduct) (s : String),
        q.search = some s → s ≠ "" →
        productSearchHandler q store = some (searchSpecResult q s store)) := by
  intro h
  have := h ⟨none, none, none, some "a+b", 1, 10, "price", "asc"⟩
    [sampleProduct] "a+b" rfl (by decide)
  exact absurd this (by decide)

/-- C8 amended: for a non-empty search string free of regex
metacharacters, the search result is exactly the list result further
restricted by the disjunctive case-insensitive substring match on name
or description. -/
theorem C8_amended (q : SearchQuery) (store : List StoredProduct) (s : String)
    (hq : q.search = some s) (hne : s ≠ "")
    (hlit : ∀ c ∈ s.data, isLiteralRegexChar c = true) :
    productSearchHandler q store = some (searchSpecResult q s store) := by
  obtain ⟨r, hr, hmatch⟩ := parseRegex_literal s hlit
  have htr : strTruthy q.search = true := by
    rw [hq]
    show decide (s ≠ "") = true
    rw [decide_eq_true_eq]
    exact hne
  have hf : searchFilters q
      = some { category := if strTruthy q.category then q.category else none,
               price := buildPriceClause q.minPrice q.maxPrice,
               orClause := some r } := by
    unfold searchFilters
    rw [if_pos htr, hq]
    simp only [Option.getD_some]
    rw [hr]
  have hpred : ∀ p : StoredProduct,
      matchesSearchFilters
        { category := if strTruthy q.category then q.category else none,
          price := buildPriceClause q.minPrice q.maxPrice,
          orClause := some r } p
        = searchSpecFilter q s p := by
    intro p
    have hname : fieldRegexMatch r (some p.name) = ciContains s p.name :=
      jsRegexTest_eq_ciContains hmatch p.name
    have hdesc : fieldRegexMatch r p.description
        = (match p.description with
           | some d => ciContains s d
           | none => false) := by
      cases p.description with
      | none => rfl
      | some d => exact jsRegexTest_eq_ciContains hmatch d
    simp only [matchesSearchFilters, searchSpecFilter, matchesProductFilters,
      hname, hdesc, Bool.and_assoc]
  have hfilter : store.filter (matchesSearchFilters
        { category := if strTruthy q.category then q.category else none,
          price := buildPriceClause q.minPrice q.maxPrice,
          orClause := some r })
      = store.filter (searchSpecFilter q s) :=
    List.filter_congr (fun a _ => hpred a)
  unfold productSearchHandler
  rw [hf]
  show some _ = some _
  unfold searchSpecResult
  rw [hfilter]

/-- C8 amended witness: the literal search string ab finds the sample
product named aab, in agreement with substring containment. -/
theorem C8_amended_witness :
    productSearchHandler ⟨none, none, none, some "ab", 1, 10, "price", "asc"⟩
        [sampleProduct]
      = some (searchSpecResult ⟨none, none, none, some "ab", 1, 10, "price", "asc"⟩
          "ab" [sampleProduct]) :=
  C8_amended ⟨none, none, none, some "ab", 1, 10, "price", "asc"⟩ [sampleProduct]
    "ab" rfl (by decide) (by decide)

end EcomSpec
